import Mathlib

/-!
# Verification of bearer-go's sanitization and transport-interception pipeline

Shallow embedding of the `bearer` Go package (files `sanitize.go`, `types.go`,
`headers.go`, `agent.go` of moul/bearer-go).  Strings are modelled as `List Char`
(Go strings are UTF-8; Go's `regexp` character classes and `encoding/json`
operate on runes, which correspond to Lean `Char`).  Machine integers
(`StartedAt`, `EndedAt`, `StatusCode` of type Go `int`) are modelled as `Int`;
no arithmetic is performed on them anywhere in the embedded code, so overflow
is irrelevant.  Go `nil` pointers/maps are modelled with `Option`; a Go runtime
panic (nil-pointer dereference) is modelled with an explicit `GoResult.panicked`
outcome.

## The sensitive-value regular expression

`sanitize.go` defines (Go raw-string literal, backquotes):

  defaultStripSensitiveRegex =
    `[a-zA-Z0-9]{1}[a-zA-Z0-9.!#$%&’*+=?^_` + "`" + `{|}~-]+@[a-zA-Z0-9-]+(?:\\.[a-zA-Z0-9-]+)*|(?:\\d[ -]*?){13,16}`

Because the literal is a RAW string, the two-character sequences `\\.` and
`\\d` reach the regexp engine as backslash-backslash-dot and
backslash-backslash-d.  The regexp engine therefore reads:

  * `\\` — an escaped backslash, matching one literal `\` character;
  * `.`  — the any-character metacharacter (any rune except `\n`);
  * `d`  — the literal letter d.

So the compiled regex is, exactly:

  alternative 1 (email): `[a-zA-Z0-9]{1}` `[local-class]+` `@` `[a-zA-Z0-9-]+`
                         `(?:\ ANY [a-zA-Z0-9-]+)*`
  alternative 2 (digit): `(?:\ d [ -]*?){13,16}`

where `\` denotes a literal backslash.  Consequently the "email" alternative
can never extend past the first domain label of a real e-mail address (a
literal backslash would be required before the dot), and the "digit"
alternative can never match a sequence of decimal digits (each unit requires
the two characters `\d` literally).  Both facts are visible in the repository's
own passing test expectations ("contact@example.com" → "[FILTERED].com").

Go's `regexp` uses leftmost-first (Perl-style) match preference.  For this
fixed pattern the preferred match is computed by the deterministic functions
below; each determinization step is justified in a comment at its definition.
-/

namespace Bearer

/-- ASCII letter or digit: the class `[a-zA-Z0-9]`. -/
def isAlnum (c : Char) : Bool :=
  ('a' ≤ c && c ≤ 'z') || ('A' ≤ c && c ≤ 'Z') || ('0' ≤ c && c ≤ '9')

/-- The extra characters of the local-part class
`[a-zA-Z0-9.!#$%&’*+=?^_`{|}~-]` beyond `[a-zA-Z0-9]`.
`Char.ofNat 8217` is `’` (U+2019, as written in the source), `Char.ofNat 96`
is the backquote, `Char.ofNat 123`/`Char.ofNat 125` are the curly braces. -/
def localSpecials : List Char :=
  ['.', '!', '#', '$', '%', '&', Char.ofNat 8217, '*', '+', '=', '?', '^', '_',
   Char.ofNat 96, Char.ofNat 123, '|', Char.ofNat 125, '~', '-']

/-- Membership in the local-part character class. -/
def isLocalClass (c : Char) : Bool := isAlnum c || localSpecials.contains c

/-- Membership in the domain-label class `[a-zA-Z0-9-]`. -/
def isDomainClass (c : Char) : Bool := isAlnum c || c = '-'

/-- Membership in the separator class `[ -]` (the two characters space and
hyphen; the hyphen is last in the class, hence literal). -/
def isSepClass (c : Char) : Bool := c = ' ' || c = '-'

/-- Length of the maximal prefix of `cs` all of whose characters satisfy `p`
(the extent of a greedy `[class]*` / `[class]+` scan). -/
def runLen (p : Char → Bool) : List Char → Nat
  | [] => 0
  | c :: cs => if p c then runLen p cs + 1 else 0

/-- Number of characters consumed by the greedy star `(?:\\.[a-zA-Z0-9-]+)*`
(one literal backslash, then any rune except newline, then a nonempty
domain-class run, repeated).  The star sits at the end of its alternative, so
greedy preference means: iterate as long as the body matches; no backtracking
into earlier iterations can ever be needed.  `fuel` is an upper bound on the
number of characters left (each iteration consumes at least 3). -/
def emailStarLen : Nat → List Char → Nat
  | 0, _ => 0
  | fuel + 1, cs =>
    match cs with
    | bs :: c :: rest =>
      if bs = '\\' ∧ c ≠ '\n' then
        let d := runLen isDomainClass rest
        if d = 0 then 0 else 2 + d + emailStarLen fuel (rest.drop d)
      else 0
    | _ => 0

/-- Preferred match length of the email alternative
`[a-zA-Z0-9]{1}[local]+@[a-zA-Z0-9-]+(?:\\.[a-zA-Z0-9-]+)*` at the head of
`cs`, or `none` if it does not match there.

Determinization: after the mandatory first alnum character, `[local]+` is
greedy; since `@` is not in the local class, every shorter (backtracked) run
would end at a local-class character, which cannot be the required `@` — so
only the maximal run can be followed by `@`.  The same argument applies to the
domain run `[a-zA-Z0-9-]+` followed by the star (whose body begins with a
literal backslash, not in the domain class).  Hence the leftmost-first
preferred match at a given start position is unique and computed directly. -/
def emailLen (cs : List Char) : Option Nat :=
  match cs with
  | [] => none
  | c :: rest =>
    if isAlnum c then
      let l := runLen isLocalClass rest
      if l = 0 then none
      else
        match rest.drop l with
        | a :: rest2 =>
          if a = '@' then
            let d := runLen isDomainClass rest2
            if d = 0 then none
            else some (1 + l + 1 + d + emailStarLen rest2.length (rest2.drop d))
          else none
        | [] => none
    else none

/-- Cumulative consumed lengths after 1, 2, 3, … repetitions of the unit
`\\d[ -]*?` (a literal backslash, the letter d, then a lazy separator run).
The lazy `[ -]*?` consumes separators only as far as needed for the next unit
to start with `\d`; since neither space nor hyphen is a backslash, the minimal
viable separator count is exactly the full separator run when it is followed
by `\d`, and the chain ends otherwise.  Separators after the last counted unit
are never consumed (lazy, and nothing follows the repetition).  The returned
list gives, for each achievable repetition count k ≥ 1, the total match length
for exactly k units (trailing separators excluded). -/
def digitChainLens : Nat → List Char → List Nat
  | 0, _ => []
  | fuel + 1, cs =>
    match cs with
    | a :: b :: rest =>
      if a = '\\' ∧ b = 'd' then
        let s := runLen isSepClass rest
        let cont := digitChainLens fuel (rest.drop s)
        2 :: cont.map (fun n => 2 + s + n)
      else []
    | _ => []

/-- Preferred match length of the digit alternative `(?:\\d[ -]*?){13,16}` at
the head of `cs`.  The counted repetition is greedy: 16 units are preferred,
then 15, 14, 13; fewer than 13 is no match. -/
def digitLen (cs : List Char) : Option Nat :=
  let lens := (digitChainLens (cs.length + 1) cs).take 16
  if lens.length < 13 then none else lens.getLast?

/-- Preferred match length of the whole sensitive-value regex at the head of
`cs`.  Leftmost-first alternation: the email alternative (written first) is
preferred whenever it matches, regardless of lengths. -/
def valueMatchLen (cs : List Char) : Option Nat :=
  match emailLen cs with
  | some n => some n
  | none => digitLen cs

/-- `defaultSensitivePlaceholder` from sanitize.go. -/
def defaultSensitivePlaceholder : String := "[FILTERED]"

/-- The placeholder as a character list. -/
def FILTEREDchars : List Char := defaultSensitivePlaceholder.data

/-- Model of `sensitiveValues.ReplaceAllString s "[FILTERED]")`: scan left to
right, at each position try the preferred match; on a match, emit the
placeholder and resume after the matched text (Go's `ReplaceAllString` with a
replacement template containing no `$`).  Both alternatives consume at least
one character, so `fuel = length + 1` suffices.  (Go advances one rune past an
empty match; this regex cannot match the empty string, so the `none`-like
fallback below is unreachable and irrelevant.) -/
def replaceAllCore : Nat → List Char → List Char
  | 0, cs => cs
  | _ + 1, [] => []
  | fuel + 1, c :: rest =>
    match valueMatchLen (c :: rest) with
    | some n => FILTEREDchars ++ replaceAllCore fuel ((c :: rest).drop n)
    | none => c :: replaceAllCore fuel rest

/-- String-level wrapper for the sensitive-value substring replacement. -/
def replaceAllStr (s : String) : String :=
  String.mk (replaceAllCore (s.data.length + 1) s.data)

/-!
## The sensitive-key regular expression

  defaultStripSensitiveKeys =
    `(?i)^authorization$|^password$|^secret$|^passwd$|^api.?key$|^access.?token$|^auth.?token$|^credentials$|^mysql_pwd$|^stripetoken$|^card.?number.?$|^secret$|^client.?id$|^client.?secret$`

Every alternative is anchored `^…$`, so `MatchString k` holds exactly when the
whole key matches one of the alternatives, case-insensitively.  `.?` is an
optional any-rune-except-newline.  (`^secret$` appears twice in the source;
the duplicate is redundant for a boolean match.)  Go's `(?i)` uses Unicode
simple case folding; the fold below is ASCII-only, which coincides with Go on
all ASCII keys (the alternatives themselves are pure ASCII).
-/

/-- ASCII lower-casing fold. -/
def foldLowerChar (c : Char) : Char :=
  if 'A' ≤ c && c ≤ 'Z' then Char.ofNat (c.toNat + 32) else c

/-- `matchLit w k l`: the folded key `l` starts with the literal `w` and the
remainder matches continuation `k`. -/
def matchLit (w : String) (k : List Char → Bool) (l : List Char) : Bool :=
  l.take w.data.length == w.data && k (l.drop w.data.length)

/-- `matchOptAny k l`: `.?` then continuation — the continuation matches `l`
itself, or `l` starts with one rune other than newline and the rest matches. -/
def matchOptAny (k : List Char → Bool) (l : List Char) : Bool :=
  k l || (match l with
          | c :: rest => decide (c ≠ '\n') && k rest
          | [] => false)

/-- End-of-string anchor `$`. -/
def matchEnd (l : List Char) : Bool := l.isEmpty

/-- Model of `sensitiveKeys.MatchString k` (the whole anchored alternation,
applied to the case-folded key). -/
def sensitiveKeyMatch (key : String) : Bool :=
  let l := key.data.map foldLowerChar
  l == "authorization".data || l == "password".data ||
  l == "secret".data || l == "passwd".data ||
  matchLit "api" (matchOptAny (matchLit "key" matchEnd)) l ||
  matchLit "access" (matchOptAny (matchLit "token" matchEnd)) l ||
  matchLit "auth" (matchOptAny (matchLit "token" matchEnd)) l ||
  l == "credentials".data || l == "mysql_pwd".data || l == "stripetoken".data ||
  matchLit "card" (matchOptAny (matchLit "number" (matchOptAny matchEnd))) l ||
  l == "secret".data ||
  matchLit "client" (matchOptAny (matchLit "id" matchEnd)) l ||
  matchLit "client" (matchOptAny (matchLit "secret" matchEnd)) l

end Bearer

namespace Bearer

/-!
## Model of `encoding/json` as used by `sanitizeJSON`

`sanitizeJSON` unmarshals the body into `map[string]interface{}` and
re-marshals it.  We model JSON values structurally.  Model notes:

* Go converts every JSON number to `float64` and re-serializes it in shortest
  form (so e.g. `1e2` would re-serialize as `100`).  We keep the numeral
  verbatim (`Json.num` stores the source characters): no claim under
  verification depends on number re-formatting, and both treatments are stable
  under a second marshal/unmarshal round.
* `json.Unmarshal` into `map[string]interface{}` succeeds on `null`, leaving
  the map nil; ranging over a nil map does nothing and `Marshal` of a nil map
  prints `null`.  This is the `Json.null` case below.
* Duplicate object keys: the Go map keeps the last value.
* `json.Marshal` prints object keys in sorted (byte-wise) order, with no
  spaces, escaping `"` `\` and control characters, and (HTML escaping, on by
  default) `<` `>` `&` and U+2028/U+2029.
* `Marshal` of a value that itself came out of `Unmarshal` cannot fail, so the
  `out, err := json.Marshal(obj)` error branch of the source is dead and the
  model is total.
-/

/-- JSON values as decoded by `json.Unmarshal` into `interface{}`. -/
inductive Json where
  | null
  | bool (b : Bool)
  | num (raw : List Char)
  | str (s : List Char)
  | arr (elems : List Json)
  | obj (kvs : List (List Char × Json))
deriving Repr

/-- JSON insignificant whitespace. -/
def isJsonWs (c : Char) : Bool := c = ' ' || c = '\t' || c = '\n' || c = '\r'

/-- Drop leading JSON whitespace. -/
def skipWs : List Char → List Char
  | [] => []
  | c :: cs => if isJsonWs c then skipWs cs else c :: cs

/-- Hex digit value (0-9, a-f, A-F by code point). -/
def hexVal (c : Char) : Option Nat :=
  let n := c.toNat
  if 48 ≤ n && n ≤ 57 then some (n - 48)
  else if 97 ≤ n && n ≤ 102 then some (n - 87)
  else if 65 ≤ n && n ≤ 70 then some (n - 55)
  else none

/-- Parse exactly four hex digits. -/
def parseHex4 : List Char → Option (Nat × List Char)
  | a :: b :: c :: d :: rest => do
    let va ← hexVal a
    let vb ← hexVal b
    let vc ← hexVal c
    let vd ← hexVal d
    some (va * 4096 + vb * 256 + vc * 16 + vd, rest)
  | _ => none

/-- Parse the body of a JSON string after the opening quote, returning the
decoded characters and the input after the closing quote.  Escapes are those
of RFC 8259 / Go: `\"` `\\` `\/` `\b` `\f` `\n` `\r` `\t` `\uXXXX`; surrogate
pairs are combined, and a lone or invalid surrogate decodes to U+FFFD exactly
as Go's decoder does; raw control characters are a syntax error. -/
def parseJsonStringBody : Nat → List Char → Option (List Char × List Char)
  | 0, _ => none
  | _ + 1, [] => none
  | fuel + 1, c :: cs =>
    if c = '"' then some ([], cs)
    else if c = '\\' then
      match cs with
      | [] => none
      | e :: cs2 =>
        let simple : Option Char :=
          if e = '"' then some '"'
          else if e = '\\' then some '\\'
          else if e = '/' then some '/'
          else if e = 'b' then some (Char.ofNat 8)
          else if e = 'f' then some (Char.ofNat 12)
          else if e = 'n' then some '\n'
          else if e = 'r' then some '\r'
          else if e = 't' then some '\t'
          else none
        match simple with
        | some ch => do
          let (tail, rest) ← parseJsonStringBody fuel cs2
          some (ch :: tail, rest)
        | none =>
          if e = 'u' then
            match parseHex4 cs2 with
            | none => none
            | some (n, cs3) =>
              if 0xD800 ≤ n && n ≤ 0xDBFF then
                -- high surrogate: try to pair it with a following \uXXXX
                match cs3 with
                | '\\' :: 'u' :: cs4 =>
                  match parseHex4 cs4 with
                  | some (m, cs5) =>
                    if 0xDC00 ≤ m && m ≤ 0xDFFF then do
                      let code := 0x10000 + (n - 0xD800) * 1024 + (m - 0xDC00)
                      let (tail, rest) ← parseJsonStringBody fuel cs5
                      some (Char.ofNat code :: tail, rest)
                    else do
                      let (tail, rest) ← parseJsonStringBody fuel cs3
                      some (Char.ofNat 0xFFFD :: tail, rest)
                  | none => do
                    let (tail, rest) ← parseJsonStringBody fuel cs3
                    some (Char.ofNat 0xFFFD :: tail, rest)
                | _ => do
                  let (tail, rest) ← parseJsonStringBody fuel cs3
                  some (Char.ofNat 0xFFFD :: tail, rest)
              else if 0xDC00 ≤ n && n ≤ 0xDFFF then do
                let (tail, rest) ← parseJsonStringBody fuel cs3
                some (Char.ofNat 0xFFFD :: tail, rest)
              else do
                let (tail, rest) ← parseJsonStringBody fuel cs3
                some (Char.ofNat n :: tail, rest)
          else none
    else if c.toNat < 0x20 then none
    else do
      let (tail, rest) ← parseJsonStringBody fuel cs
      some (c :: tail, rest)

/-- Decimal digit test. -/
def isDigitChar (c : Char) : Bool := '0' ≤ c && c ≤ '9'

/-- Parse a JSON number, returning its raw characters and the rest.
Grammar: `-? (0 | [1-9][0-9]*) (. [0-9]+)? ([eE] [+-]? [0-9]+)?`. -/
def parseNumRaw (cs : List Char) : Option (List Char × List Char) :=
  let (neg, cs1) :=
    match cs with
    | c :: t => if c = '-' then ([c], t) else (([] : List Char), cs)
    | [] => (([] : List Char), cs)
  match cs1 with
  | [] => none
  | c :: t =>
    if c = '0' then
      let intPart := [c]
      afterInt neg intPart t
    else if isDigitChar c then
      let k := runLen isDigitChar t
      afterInt neg (c :: t.take k) (t.drop k)
    else none
where
  afterInt (neg intPart : List Char) (rest : List Char) : Option (List Char × List Char) :=
    let (frac, rest1) :=
      match rest with
      | d :: t =>
        if d = '.' then
          let k := runLen isDigitChar t
          if k = 0 then (none, rest)
          else (some (d :: t.take k), t.drop k)
        else (none, rest)
      | [] => (none, rest)
    match frac with
    | none =>
      -- a dot not followed by a digit is a syntax error
      if rest.head? = some '.' then none
      else
        match parseExp rest1 with
        | none => none
        | some (ex, rest2) => some (neg ++ intPart ++ ex, rest2)
    | some fr =>
      match parseExp rest1 with
      | none => none
      | some (ex, rest2) => some (neg ++ intPart ++ fr ++ ex, rest2)
  parseExp (rest : List Char) : Option (List Char × List Char) :=
    match rest with
    | c :: t => if c = 'e' ∨ c = 'E' then parseExpSign c t else some ([], rest)
    | [] => some ([], rest)
  parseExpSign (e : Char) (t : List Char) : Option (List Char × List Char) :=
    let (sgn, t1) :=
      match t with
      | c :: u => if c = '+' ∨ c = '-' then ([c], u) else (([] : List Char), t)
      | [] => (([] : List Char), t)
    let k := runLen isDigitChar t1
    if k = 0 then none
    else some (e :: sgn ++ t1.take k, t1.drop k)

/-- Keep the last value for each key, as a Go map does for duplicate keys
(key order irrelevant: marshalling sorts). -/
def dedupKeepLast (kvs : List (List Char × Json)) : List (List Char × Json) :=
  let keys := (kvs.map Prod.fst).eraseDups
  keys.filterMap fun k =>
    match kvs.reverse.find? (fun kv => kv.1 == k) with
    | some kv => some (k, kv.2)
    | none => none

mutual

/-- Parse one JSON value (after leading whitespace has been skipped). -/
def parseJsonVal : Nat → List Char → Option (Json × List Char)
  | 0, _ => none
  | fuel + 1, cs =>
    match cs with
    | [] => none
    | c :: rest =>
      if c = '"' then
        match parseJsonStringBody (rest.length + 1) rest with
        | some (s, rest2) => some (Json.str s, rest2)
        | none => none
      else if c = Char.ofNat 123 then     -- opening brace
        let rest1 := skipWs rest
        match rest1 with
        | c2 :: rest2 =>
          if c2 = Char.ofNat 125 then some (Json.obj [], rest2)    -- closing brace
          else
            match parseJsonMembers fuel rest1 with
            | some (kvs, rest3) => some (Json.obj (dedupKeepLast kvs), rest3)
            | none => none
        | [] => none
      else if c = '[' then
        let rest1 := skipWs rest
        match rest1 with
        | ']' :: rest2 => some (Json.arr [], rest2)
        | _ =>
          match parseJsonElems fuel rest1 with
          | some (xs, rest3) => some (Json.arr xs, rest3)
          | none => none
      else if c = 't' then
        match cs with
        | 't' :: 'r' :: 'u' :: 'e' :: rest2 => some (Json.bool true, rest2)
        | _ => none
      else if c = 'f' then
        match cs with
        | 'f' :: 'a' :: 'l' :: 's' :: 'e' :: rest2 => some (Json.bool false, rest2)
        | _ => none
      else if c = 'n' then
        match cs with
        | 'n' :: 'u' :: 'l' :: 'l' :: rest2 => some (Json.null, rest2)
        | _ => none
      else
        match parseNumRaw cs with
        | some (raw, rest2) => some (Json.num raw, rest2)
        | none => none

/-- Parse `string : value (, string : value)*` then the closing brace. -/
def parseJsonMembers : Nat → List Char → Option (List (List Char × Json) × List Char)
  | 0, _ => none
  | fuel + 1, cs =>
    match cs with
    | '"' :: rest =>
      match parseJsonStringBody (rest.length + 1) rest with
      | none => none
      | some (key, rest2) =>
        match skipWs rest2 with
        | ':' :: rest3 =>
          match parseJsonVal fuel (skipWs rest3) with
          | none => none
          | some (v, rest4) =>
            match skipWs rest4 with
            | ',' :: rest5 =>
              match parseJsonMembers fuel (skipWs rest5) with
              | some (kvs, rest6) => some ((key, v) :: kvs, rest6)
              | none => none
            | c :: rest5 =>
              if c = Char.ofNat 125 then some ([(key, v)], rest5) else none
            | [] => none
        | _ => none
    | _ => none

/-- Parse `value (, value)*` then the closing bracket. -/
def parseJsonElems : Nat → List Char → Option (List Json × List Char)
  | 0, _ => none
  | fuel + 1, cs =>
    match parseJsonVal fuel cs with
    | none => none
    | some (v, rest) =>
      match skipWs rest with
      | ',' :: rest2 =>
        match parseJsonElems fuel (skipWs rest2) with
        | some (xs, rest3) => some (v :: xs, rest3)
        | none => none
      | ']' :: rest2 => some ([v], rest2)
      | _ => none

end

/-- `json.Unmarshal` of a whole input: one value, with surrounding whitespace,
and nothing else. -/
def parseJsonTop (s : List Char) : Option Json :=
  match parseJsonVal (s.length + 1) (skipWs s) with
  | some (v, rest) => if (skipWs rest).isEmpty then some v else none
  | none => none

/-- Byte-wise (equivalently, code-point-wise) strict order on strings, the
order in which `json.Marshal` emits map keys. -/
def lexLtChars : List Char → List Char → Bool
  | [], [] => false
  | [], _ :: _ => true
  | _ :: _, [] => false
  | a :: as, b :: bs =>
    if a.toNat < b.toNat then true
    else if a.toNat = b.toNat then lexLtChars as bs
    else false

/-- Insertion of a key/value pair into a key-sorted list. -/
def insertByKey (kv : List Char × Json) : List (List Char × Json) → List (List Char × Json)
  | [] => [kv]
  | kv2 :: rest =>
    if lexLtChars kv.1 kv2.1 then kv :: kv2 :: rest
    else kv2 :: insertByKey kv rest

/-- Sort an association list by key (keys are distinct after `dedupKeepLast`,
so stability is irrelevant). -/
def sortByKey : List (List Char × Json) → List (List Char × Json)
  | [] => []
  | kv :: rest => insertByKey kv (sortByKey rest)

/-- Lowercase hex digits. -/
def hexDigit (n : Nat) : Char :=
  Char.ofNat (if n < 10 then 48 + n else 87 + n)

/-- `json.Marshal` string-character escaping (HTML escaping on, the default):
`"` and `\` get a backslash, `\n` `\r` `\t` use the short escapes, other
control characters use `\u00xx`, and `<` `>` `&` U+2028 U+2029 are escaped to
`\uxxxx`. -/
def escapeJsonChar (c : Char) : List Char :=
  if c = '"' then ['\\', '"']
  else if c = '\\' then ['\\', '\\']
  else if c = '\n' then ['\\', 'n']
  else if c = '\r' then ['\\', 'r']
  else if c = '\t' then ['\\', 't']
  else if c.toNat < 0x20 then
    ['\\', 'u', '0', '0', hexDigit (c.toNat / 16), hexDigit (c.toNat % 16)]
  else if c = '<' then ['\\', 'u', '0', '0', '3', 'c']
  else if c = '>' then ['\\', 'u', '0', '0', '3', 'e']
  else if c = '&' then ['\\', 'u', '0', '0', '2', '6']
  else if c.toNat = 0x2028 then ['\\', 'u', '2', '0', '2', '8']
  else if c.toNat = 0x2029 then ['\\', 'u', '2', '0', '2', '9']
  else [c]

/-- Marshal a JSON string literal (quotes included). -/
def marshalString (s : List Char) : List Char :=
  '"' :: (s.flatMap escapeJsonChar) ++ ['"']

mutual

/-- `json.Marshal`, on the values `Unmarshal` can produce.  `fuel` decreases
on every recursive call (structurally, so the kernel can evaluate it); the
callers supply the input length, which suffices because every member and
every nesting level of a parsed value consumed at least one input character. -/
def marshalJson : Nat → Json → List Char
  | _, Json.null => "null".data
  | _, Json.bool true => "true".data
  | _, Json.bool false => "false".data
  | _, Json.num raw => raw
  | _, Json.str s => marshalString s
  | 0, Json.arr _ => []
  | fuel + 1, Json.arr xs => '[' :: marshalArr fuel xs ++ [']']
  | 0, Json.obj _ => []
  | fuel + 1, Json.obj kvs => Char.ofNat 123 :: marshalMembers fuel (sortByKey kvs) ++ [Char.ofNat 125]

/-- Comma-joined array elements. -/
def marshalArr : Nat → List Json → List Char
  | _, [] => []
  | 0, _ => []
  | fuel + 1, [x] => marshalJson fuel x
  | fuel + 1, x :: y :: rest => marshalJson fuel x ++ ',' :: marshalArr fuel (y :: rest)

/-- Comma-joined `"key":value` members. -/
def marshalMembers : Nat → List (List Char × Json) → List Char
  | _, [] => []
  | 0, _ => []
  | fuel + 1, [kv] => marshalString kv.1 ++ ':' :: marshalJson fuel kv.2
  | fuel + 1, kv :: kv2 :: rest =>
    marshalString kv.1 ++ ':' :: marshalJson fuel kv.2 ++ ',' :: marshalMembers fuel (kv2 :: rest)

end

/-- Model of `sanitizeJSON` (sanitize.go):

    func sanitizeJSON(input string) (string, error)

Unmarshal into `map[string]interface{}`; on failure return the input unchanged
with no error.  Otherwise redact each top-level entry — key match: whole value
becomes the placeholder; otherwise, string values get the value-pattern
substring replacement and all other values are untouched — and re-marshal.
The Go function can only return an error from `json.Marshal`, which cannot
fail here (see the model notes), so the model returns only the string. -/
def sanitizeJSON (input : String) : String :=
  match parseJsonTop input.data with
  | some (Json.obj kvs) =>
    let kvs2 := kvs.map fun kv =>
      if sensitiveKeyMatch (String.mk kv.1) then (kv.1, Json.str FILTEREDchars)
      else
        match kv.2 with
        | Json.str s => (kv.1, Json.str (replaceAllCore (s.length + 1) s))
        | v => (kv.1, v)
    String.mk (marshalJson (input.data.length + 1) (Json.obj kvs2))
  | some Json.null => "null"
  | _ => input

end Bearer

namespace Bearer

/-!
## Model of `net/url` as used by `sanitize`

`sanitize` calls `url.Parse` on the (already substring-replaced) URL, reads
`u.Query()`, and on a key match writes `u.RawQuery = queries.Encode()` and
`r.URL = u.String()`.

Model notes (the fragment of `net/url` covered, with deliberate choices):

* Go stores `Path` decoded and keeps `RawPath`/the escaped form for
  `String()`; for URLs whose written path is a valid encoding that round-trips
  (in particular every path without `%` and without characters Go would have
  to escape), `String()` emits the path exactly as written.  The model keeps
  the raw path text and emits it verbatim, and likewise keeps the raw
  userinfo, host and fragment text.  Percent-escape validity in the path and
  userinfo is still checked, because `url.Parse` fails on bad escapes.
* Query strings are handled at full fidelity modulo UTF-8: `ParseQuery` and
  `Values.Encode` work on bytes in Go; the model converts to UTF-8 bytes and
  back, so it covers every query whose percent-decoded bytes are valid UTF-8
  (a Go string can also hold invalid bytes; such inputs are outside the
  model).
* `url.Parse` failures modelled: control characters in the URL, a missing
  scheme before `:`, bad percent-escapes, `[`-hosts without `]`, a non-numeric
  port, invalid userinfo characters, and a colon in the first path segment of
  a scheme-less URL.  These are the error paths reachable from `sanitize`.
-/

/-- UTF-8 encoding of one scalar value. -/
def charUtf8Bytes (c : Char) : List Nat :=
  let n := c.toNat
  if n < 0x80 then [n]
  else if n < 0x800 then [0xC0 + n / 64, 0x80 + n % 64]
  else if n < 0x10000 then [0xE0 + n / 4096, 0x80 + n / 64 % 64, 0x80 + n % 64]
  else [0xF0 + n / 262144, 0x80 + n / 4096 % 64, 0x80 + n / 64 % 64, 0x80 + n % 64]

/-- UTF-8 encoding of a string. -/
def utf8Encode (s : List Char) : List Nat := s.flatMap charUtf8Bytes

/-- Is `b` a UTF-8 continuation byte? -/
def isCont (b : Nat) : Bool := 0x80 ≤ b && b < 0xC0

/-- Strict UTF-8 decoding (rejects overlong forms, surrogates and
out-of-range values, as Go's decoder classifies them as invalid). -/
def utf8Decode : Nat → List Nat → Option (List Char)
  | 0, _ => none
  | _ + 1, [] => some []
  | fuel + 1, b :: rest =>
    if b < 0x80 then do
      let tail ← utf8Decode fuel rest
      some (Char.ofNat b :: tail)
    else if 0xC2 ≤ b && b < 0xE0 then
      match rest with
      | b1 :: r =>
        if isCont b1 then do
          let tail ← utf8Decode fuel r
          some (Char.ofNat ((b - 0xC0) * 64 + (b1 - 0x80)) :: tail)
        else none
      | _ => none
    else if 0xE0 ≤ b && b < 0xF0 then
      match rest with
      | b1 :: b2 :: r =>
        if isCont b1 && isCont b2 then
          let n := (b - 0xE0) * 4096 + (b1 - 0x80) * 64 + (b2 - 0x80)
          if 0x800 ≤ n && ¬ (0xD800 ≤ n && n ≤ 0xDFFF) then do
            let tail ← utf8Decode fuel r
            some (Char.ofNat n :: tail)
          else none
        else none
      | _ => none
    else if 0xF0 ≤ b && b < 0xF5 then
      match rest with
      | b1 :: b2 :: b3 :: r =>
        if isCont b1 && isCont b2 && isCont b3 then
          let n := (b - 0xF0) * 262144 + (b1 - 0x80) * 4096 + (b2 - 0x80) * 64 + (b3 - 0x80)
          if 0x10000 ≤ n && n ≤ 0x10FFFF then do
            let tail ← utf8Decode fuel r
            some (Char.ofNat n :: tail)
          else none
        else none
      | _ => none
    else none

/-- Byte value of a hex digit pair. -/
def hexPair (a b : Char) : Option Nat := do
  let va ← hexVal a
  let vb ← hexVal b
  some (va * 16 + vb)

/-- `%`-unescaping of a byte sequence in query mode (`+` becomes space),
failing on malformed escapes — the byte-level core of `url.QueryUnescape`. -/
def unescapeQueryBytes : Nat → List Nat → Option (List Nat)
  | 0, _ => none
  | _ + 1, [] => some []
  | fuel + 1, b :: rest =>
    if b = '%'.toNat then
      match rest with
      | b1 :: b2 :: r =>
        match hexPair (Char.ofNat b1) (Char.ofNat b2) with
        | some v => do
          let tail ← unescapeQueryBytes fuel r
          some (v :: tail)
        | none => none
      | _ => none
    else if b = '+'.toNat then do
      let tail ← unescapeQueryBytes fuel rest
      some (' '.toNat :: tail)
    else do
      let tail ← unescapeQueryBytes fuel rest
      some (b :: tail)

/-- `url.QueryUnescape` on strings (through UTF-8 bytes). -/
def queryUnescape (s : List Char) : Option (List Char) := do
  let bytes := utf8Encode s
  let out ← unescapeQueryBytes (bytes.length + 1) bytes
  utf8Decode (out.length + 1) out

/-- Bytes that `url.QueryEscape` leaves unescaped: `[A-Za-z0-9-_.~]`. -/
def queryUnreserved (b : Nat) : Bool :=
  ('a'.toNat ≤ b && b ≤ 'z'.toNat) || ('A'.toNat ≤ b && b ≤ 'Z'.toNat) ||
  ('0'.toNat ≤ b && b ≤ '9'.toNat) ||
  b = '-'.toNat || b = '_'.toNat || b = '.'.toNat || b = '~'.toNat

/-- Uppercase hex digit (percent-escapes use uppercase). -/
def hexDigitU (n : Nat) : Char :=
  Char.ofNat (if n < 10 then 48 + n else 55 + n)

/-- `url.QueryEscape`: space to `+`, unreserved bytes kept, the rest `%XX`. -/
def queryEscape (s : List Char) : List Char :=
  (utf8Encode s).flatMap fun b =>
    if b = ' '.toNat then ['+']
    else if queryUnreserved b then [Char.ofNat b]
    else ['%', hexDigitU (b / 16), hexDigitU (b % 16)]

/-- Split a character list at every occurrence of `sep`. -/
def splitOn (sep : Char) : Nat → List Char → List (List Char)
  | 0, cs => [cs]
  | fuel + 1, cs =>
    match cs.takeWhile (· ≠ sep), cs.dropWhile (· ≠ sep) with
    | pre, [] => [pre]
    | pre, _ :: rest => pre :: splitOn sep fuel rest

/-- Append `v` to the values of key `k`, or add a new entry — the
`m[key] = append(m[key], value)` step of `ParseQuery` building `url.Values`. -/
def addQueryValue (k v : List Char) :
    List (List Char × List (List Char)) → List (List Char × List (List Char))
  | [] => [(k, [v])]
  | (k2, vs) :: rest =>
    if k2 == k then (k2, vs ++ [v]) :: rest else (k2, vs) :: addQueryValue k v rest

/-- Model of `url.ParseQuery` with the error ignored, which is exactly what
`u.Query()` does: segments are split on `&`; a segment containing `;` is
dropped (semicolon error, since Go 1.17); empty segments are skipped; each
segment is cut at the first `=`; pairs whose key or value fails unescaping are
dropped; surviving pairs accumulate into the multi-map in order. -/
def goParseQuery (s : List Char) : List (List Char × List (List Char)) :=
  (splitOn '&' (s.length + 1) s).foldl
    (fun m seg =>
      if seg.contains ';' then m
      else
        match seg with
        | [] => m
        | _ =>
          let key := seg.takeWhile (· ≠ '=')
          let val := (seg.dropWhile (· ≠ '=')).drop 1
          match queryUnescape key, queryUnescape val with
          | some k, some v => addQueryValue k v m
          | _, _ => m)
    []

/-- Sorted-key insertion for `url.Values.Encode` (byte-wise key order). -/
def insertQByKey (kv : List Char × List (List Char)) :
    List (List Char × List (List Char)) → List (List Char × List (List Char))
  | [] => [kv]
  | kv2 :: rest =>
    if lexLtChars kv.1 kv2.1 then kv :: kv2 :: rest
    else kv2 :: insertQByKey kv rest

/-- Sort the multi-map by key. -/
def sortQByKey : List (List Char × List (List Char)) → List (List Char × List (List Char))
  | [] => []
  | kv :: rest => insertQByKey kv (sortQByKey rest)

/-- Intercalate with a separator character. -/
def joinWith (sep : Char) : List (List Char) → List Char
  | [] => []
  | [x] => x
  | x :: y :: rest => x ++ sep :: joinWith sep (y :: rest)

/-- Model of `url.Values.Encode`: keys in sorted order, every value escaped,
`key=value` pairs joined by `&`. -/
def valuesEncode (m : List (List Char × List (List Char))) : List Char :=
  joinWith '&'
    ((sortQByKey m).flatMap fun kv =>
      kv.2.map fun v => queryEscape kv.1 ++ '=' :: queryEscape v)

/-- The components of a parsed URL (`url.URL`), raw-text model. -/
structure GoURL where
  scheme : String := ""
  opq : String := ""
  user : Option String := none
  hasAuthority : Bool := false
  host : String := ""
  path : String := ""
  rawQuery : String := ""
  forceQuery : Bool := false
  fragment : Option String := none
deriving Repr, DecidableEq

/-- ASCII control character (or DEL), which `url.Parse` rejects anywhere. -/
def isCtl (c : Char) : Bool := c.toNat < 0x20 || c.toNat = 0x7F

/-- Scheme characters after the first: `[A-Za-z0-9+.-]`. -/
def isSchemeChar (c : Char) : Bool := isAlnum c || c = '+' || c = '-' || c = '.'

/-- ASCII letter. -/
def isAlpha (c : Char) : Bool := ('a' ≤ c && c ≤ 'z') || ('A' ≤ c && c ≤ 'Z')

/-- Characters allowed in raw userinfo (`validUserinfo`): unreserved,
sub-delims, `:` and `%`. -/
def isUserinfoChar (c : Char) : Bool :=
  isAlnum c || "-._:~!$&'()*+,;=%".data.contains c

/-- Are all `%`-escapes in `s` well-formed (`%` followed by two hex digits)? -/
def validPctEscapes : Nat → List Char → Bool
  | 0, _ => false
  | _ + 1, [] => true
  | fuel + 1, c :: rest =>
    if c = '%' then
      match rest with
      | a :: b :: r => (hexPair a b).isSome && validPctEscapes fuel r
      | _ => false
    else validPctEscapes fuel rest

/-- `validOptionalPort`: empty, or `:` followed by digits only. -/
def validOptionalPort (s : List Char) : Bool :=
  match s with
  | [] => true
  | ':' :: ds => ds.all isDigitChar
  | _ => false

/-- Host validation, the checks of `parseHost` reachable here: a `[`-host
needs a closing `]` with only a valid optional port after it; otherwise the
text after the last `:` must be a valid port; `%`-escapes must be well-formed. -/
def validHost (h : List Char) : Bool :=
  validPctEscapes (h.length + 1) h &&
  match h with
  | '[' :: _ =>
    let i := (h.length - 1) - (h.reverse.takeWhile (· ≠ ']')).length
    h.contains ']' && validOptionalPort (h.drop (i + 1))
  | _ =>
    if h.contains ':' then
      validOptionalPort (':' :: (h.reverse.takeWhile (· ≠ ':')).reverse)
    else true

/-- Model of `url.Parse` on the covered fragment.  Returns the parsed
components or an error (the error string is unused by `sanitize` beyond being
non-nil, so its exact text is irrelevant). -/
def parseURL (s : String) : Except String GoURL :=
  let cs := s.data
  if cs.any isCtl then .error "net/url: invalid control character in URL"
  else
    -- fragment: split at the first '#'
    let beforeFrag := cs.takeWhile (· ≠ '#')
    let fragPart := cs.dropWhile (· ≠ '#')
    let fragment : Option String :=
      match fragPart with
      | [] => none
      | _ :: f => some (String.mk f)
    -- scheme
    let schemeLen := if isAlpha (beforeFrag.headD ' ') then
        1 + runLen isSchemeChar (beforeFrag.drop 1) else 0
    let hasScheme := decide (0 < schemeLen) && ((beforeFrag.drop schemeLen).headD ' ' == ':')
    let scheme := if hasScheme then (beforeFrag.take schemeLen).map foldLowerChar else []
    let afterScheme := if hasScheme then beforeFrag.drop (schemeLen + 1) else beforeFrag
    if beforeFrag.headD ' ' = ':' then .error "missing protocol scheme"
    else
      -- query: ForceQuery when the rest ends in the only '?'
      let qSplitPre := afterScheme.takeWhile (· ≠ '?')
      let qSplitPost := afterScheme.dropWhile (· ≠ '?')
      let (rest, rawQuery, forceQuery) :=
        match qSplitPost with
        | [] => (qSplitPre, [], false)
        | _ :: q => if q = [] then (qSplitPre, [], true) else (qSplitPre, q, false)
      match rest with
      | '/' :: '/' :: auth0 =>
        let authority := auth0.takeWhile (· ≠ '/')
        let path := auth0.dropWhile (· ≠ '/')
        let hasUser := authority.contains '@'
        let user := if hasUser then
            some ((authority.reverse.dropWhile (· ≠ '@')).reverse.dropLast) else none
        let host := if hasUser then authority.reverse.takeWhile (· ≠ '@') |>.reverse
                    else authority
        if hasUser && !(user.getD []).all isUserinfoChar then
          .error "net/url: invalid userinfo"
        else if hasUser && !validPctEscapes ((user.getD []).length + 1) (user.getD []) then
          .error "invalid URL escape in userinfo"
        else if ¬ validHost host then .error "invalid host"
        else if ¬ validPctEscapes (path.length + 1) path then .error "invalid URL escape"
        else
          .ok { scheme := String.mk scheme, user := user.map String.mk,
                hasAuthority := true, host := String.mk host, path := String.mk path,
                rawQuery := String.mk rawQuery, forceQuery := forceQuery,
                fragment := fragment }
      | _ =>
        if hasScheme && (rest.headD ' ' != '/') && !rest.isEmpty then
          -- the scheme-colon-opaque form (Go's URL.Opaque component)
          .ok { scheme := String.mk scheme, opq := String.mk rest,
                rawQuery := String.mk rawQuery, forceQuery := forceQuery,
                fragment := fragment }
        else if ¬ hasScheme && (rest.takeWhile (· ≠ '/')).contains ':' then
          .error "first path segment in URL cannot contain colon"
        else if ¬ validPctEscapes (rest.length + 1) rest then .error "invalid URL escape"
        else
          .ok { scheme := String.mk scheme, path := String.mk rest,
                rawQuery := String.mk rawQuery, forceQuery := forceQuery,
                fragment := fragment }

/-- Model of `url.URL.String()` on the raw-text components. -/
def urlString (u : GoURL) : String :=
  let schemePart := if u.scheme ≠ "" then u.scheme.data ++ [':'] else []
  let body :=
    if u.opq ≠ "" then u.opq.data
    else
      let auth :=
        if u.scheme ≠ "" || u.host ≠ "" || u.user.isSome then
          (if u.host ≠ "" || u.path ≠ "" || u.user.isSome then "//".data else []) ++
          (match u.user with
           | some ui => ui.data ++ ['@']
           | none => []) ++ u.host.data
        else []
      let pathPart :=
        if u.path ≠ "" && u.path.data.headD ' ' ≠ '/' && u.host ≠ "" then
          '/' :: u.path.data
        else u.path.data
      let pre := auth ++ pathPart
      let pre :=
        if schemePart = [] && auth = [] &&
           (u.path.data.takeWhile (· ≠ '/')).contains ':' then
          '.' :: '/' :: pre
        else pre
      pre
  let queryPart := if u.forceQuery || u.rawQuery ≠ "" then '?' :: u.rawQuery.data else []
  let fragPart := match u.fragment with
                  | some f => '#' :: f.data
                  | none => []
  String.mk (schemePart ++ body ++ queryPart ++ fragPart)

end Bearer

namespace Bearer

/-!
## `ReportLog` and `sanitize`

`types.go` defines `ReportLog`; header maps can be Go-`nil`, modelled with
`Option`.  A non-nil map is modelled as an association list (Go map iteration
order is unspecified; `sanitize` rewrites each entry independently, so the
entry order never affects the result, and the `Request/ResponseContentType`
accessors are only order-sensitive when two distinct keys both lower-case to
"content-type", a situation none of the verified properties involves).

`sanitize` mutates the record in place through a pointer and can return early
with an error after the URL re-parse; the model therefore returns the record
as mutated so far together with the (optional) error.
-/

/-- `ReportLog` (types.go). -/
structure ReportLog where
  Protocol : String := ""
  Path : String := ""
  Hostname : String := ""
  Method : String := ""
  StartedAt : Int := 0
  EndedAt : Int := 0
  «Type» : String := ""
  StatusCode : Int := 0
  URL : String := ""
  RequestHeaders : Option (List (String × String)) := none
  RequestBody : String := ""
  ResponseHeaders : Option (List (String × String)) := none
  ResponseBody : String := ""
deriving Repr, DecidableEq

/-- Shared body of the two content-type accessors: the value of the first
header whose key lower-cases to "content-type" (`strings.ToLower(k)`,
ASCII-folded here, which agrees with Go on ASCII keys). -/
def headersContentType (hs : Option (List (String × String))) : String :=
  match hs with
  | none => ""
  | some l =>
    match l.find? (fun kv => kv.1.data.map foldLowerChar == "content-type".data) with
    | some kv => kv.2
    | none => ""

/-- `ReportLog.RequestContentType` (types.go). -/
def ReportLog.RequestContentType (r : ReportLog) : String :=
  headersContentType r.RequestHeaders

/-- `ReportLog.ResponseContentType` (types.go). -/
def ReportLog.ResponseContentType (r : ReportLog) : String :=
  headersContentType r.ResponseHeaders

/-- One header entry of the sanitize loop: a key matching the sensitive-key
pattern has its whole value replaced by the placeholder; any other value gets
the sensitive-value substring replacement. -/
def sanitizeHeaderEntry (kv : String × String) : String × String :=
  if sensitiveKeyMatch kv.1 then (kv.1, defaultSensitivePlaceholder)
  else (kv.1, replaceAllStr kv.2)

/-- The URL-and-query step of `sanitize`, operating on the URL and Path
fields.  Skipped entirely when the URL is empty.  Otherwise both strings get
the value-substring replacement FIRST; then the (already mutated) URL is
re-parsed — a failure is returned as the error, with the mutated strings kept.
On success, query parameters with a sensitive key have all their values
replaced, and only if at least one parameter changed is the query re-encoded
(sorted keys) and the URL rebuilt via `String()`; otherwise the URL remains
the post-replacement string verbatim. -/
def sanitizeURLStep (url path : String) :
    (String × String) × Option String :=
  if url = "" then ((url, path), none)
  else
    let url1 := replaceAllStr url
    let path1 := replaceAllStr path
    match parseURL url1 with
    | .error e => ((url1, path1), some e)
    | .ok u =>
      let queries := goParseQuery u.rawQuery.data
      let changed := queries.any fun kv => sensitiveKeyMatch (String.mk kv.1)
      if changed then
        let queries2 := queries.map fun kv =>
          if sensitiveKeyMatch (String.mk kv.1) then
            (kv.1, kv.2.map fun _ => FILTEREDchars)
          else kv
        ((urlString { u with rawQuery := String.mk (valuesEncode queries2) }, path1), none)
      else ((url1, path1), none)

/-- Model of `(*ReportLog).sanitize` (sanitize.go): headers, then URL & query
(possible early error return, with the mutations so far kept), then the two
bodies — each sanitized as JSON exactly when non-empty and the corresponding
content type is exactly "application/json".  `sanitizeJSON` never returns an
error (see its model notes), so the only error is the URL re-parse failure. -/
def ReportLog.sanitize (r : ReportLog) : ReportLog × Option String :=
  let r1 := { r with RequestHeaders := r.RequestHeaders.map (List.map sanitizeHeaderEntry),
                     ResponseHeaders := r.ResponseHeaders.map (List.map sanitizeHeaderEntry) }
  match sanitizeURLStep r1.URL r1.Path with
  | ((url1, path1), some e) => ({ r1 with URL := url1, Path := path1 }, some e)
  | ((url2, path2), none) =>
    let r2 := { r1 with URL := url2, Path := path2 }
    let r3 := if r2.RequestBody ≠ "" ∧ r2.RequestContentType = "application/json" then
        { r2 with RequestBody := sanitizeJSON r2.RequestBody } else r2
    let r4 := if r3.ResponseBody ≠ "" ∧ r3.ResponseContentType = "application/json" then
        { r3 with ResponseBody := sanitizeJSON r3.ResponseBody } else r3
    (r4, none)

end Bearer

namespace Bearer

/-!
## Model of the agent (agent.go)

The pieces of `Agent` behaviour the claims depend on:

* `Agent.config()`: under the mutex, if the cache is nil it increments
  `configUpdates` and performs the blocking fetch.  On fetch failure it logs a
  warning and returns Go `nil` (the cache stays nil, so the next access
  retries); on success it stores the config, starts the background refresh
  goroutine (outside this model) and returns it.  The network fetch itself is
  passed in as a parameter (`Except` result), which turns the stateful method
  into a pure step function.
* `Agent.RoundTrip`: begins with
  `for _, domain := range a.config().BlockedDomains` — a field selection on
  the `*Config` returned by `config()`.  When that pointer is nil (first fetch
  failed) Go panics with a nil-pointer dereference; the model makes this an
  explicit `panicked` outcome on the caller's goroutine.
* `newRecord`: called on the caller's goroutine (only `logRecords` runs inside
  the recover-protected goroutine).  Its struct literal evaluates
  `resp.StatusCode` (and `resp.Header`), so a nil response — the situation
  whenever the underlying transport returns an error — panics; explicit
  `panicked` outcome again.
* Request/response bodies are byte buffers; the buffer-duplication dance
  (`ioutil.ReadAll` + two `NopCloser(bytes.NewBuffer(buf))`) reconstructs the
  same bytes for caller and record, so bodies are modelled as the plain
  `Option String` contents (nil body = `none`); stream-consumption state is
  outside a shallow embedding, byte content is what the claims compare.
-/

/-- `Config` (types.go). -/
structure Config where
  BlockedDomains : List String := []
deriving Repr, DecidableEq

/-- Outcome of a Go computation that may panic. -/
inductive GoResult (α : Type) where
  | ok (a : α)
  | panicked (msg : String)
deriving Repr, DecidableEq

/-- One call of `Agent.config()` with a nil or cached state: returns the
`*Config` result together with the new `(configCache, configUpdates)` state.
`fetch` is the outcome `a.Config()` would produce for this call. -/
def configStep (cache : Option Config) (updates : Nat) (fetch : Except String Config) :
    Option Config × Option Config × Nat :=
  match cache with
  | some c => (some c, some c, updates)
  | none =>
    match fetch with
    | .error _ => (none, none, updates + 1)   -- warning logged; nil returned; cache still nil
    | .ok c => (some c, some c, updates + 1)  -- cache set; background refresh loop started

/-- `http.Request` restricted to the fields `RoundTrip`/`newRecord` read.
`urlStr` is `req.URL.String()` and `host` is `req.URL.Hostname()`. -/
structure HttpRequest where
  scheme : String := ""
  host : String := ""
  path : String := ""
  urlStr : String := ""
  method : String := ""
  headers : Option (List (String × List String)) := none
  body : Option String := none
deriving Repr, DecidableEq

/-- `http.Response` restricted to the fields read. -/
structure HttpResponse where
  statusCode : Int := 0
  headers : Option (List (String × List String)) := none
  body : Option String := none
deriving Repr, DecidableEq

/-- `goHeadersToBearerHeaders` (headers.go): nil maps to nil; otherwise every
key keeps only the first of its values.  (Go indexes `values[0]`; request and
response header maps never carry empty value slices, and no claim constructs
one, so the empty-slice panic is not modelled.) -/
def goHeadersToBearerHeaders (input : Option (List (String × List String))) :
    Option (List (String × String)) :=
  match input with
  | none => none
  | some l => some (l.map fun kv => (kv.1, kv.2.headD ""))

/-- Case-insensitive substring containment of an ASCII needle. -/
def containsSubstr (hay needle : List Char) : Bool :=
  let folded := hay.map foldLowerChar
  (List.range (folded.length + 1)).any fun i => needle.isPrefixOf (folded.drop i)

/-- Model of `isParseableContentType.MatchString`: the regex
`(?i)json|text|xml|x-www-form-urlencoded` holds iff the (case-folded) string
contains one of the four literals. -/
def isParseableContentType (s : String) : Bool :=
  containsSubstr s.data "json".data || containsSubstr s.data "text".data ||
  containsSubstr s.data "xml".data || containsSubstr s.data "x-www-form-urlencoded".data

/-- Model of `newRecord` (agent.go).  `reqReader` is the retained duplicate of
the request body (non-`none` exactly when the request had a body and the agent
is available).  The struct literal dereferences `resp`, so a nil response is a
panic.  Note the capture conditions as written in the source: the RESPONSE
body is captured when `roundtripError == nil && resp.Body != nil` and the
REQUEST content type passes the parseable filter; the REQUEST body is captured
when `reqReader != nil` and the RESPONSE content type passes the filter.
Finally the record is sanitized; a sanitize error is only logged, and the
record — mutated as far as sanitize got — is returned regardless. -/
def newRecord (req : HttpRequest) (resp : Option HttpResponse)
    (startedAt endedAt : Int) (reqReader : Option String)
    (roundtripError : Option String) : GoResult ReportLog :=
  match resp with
  | none => .panicked "runtime error: invalid memory address or nil pointer dereference"
  | some rsp =>
    let record : ReportLog := {
      Protocol := req.scheme
      Path := req.path
      Hostname := req.host
      Method := req.method
      StartedAt := startedAt
      EndedAt := endedAt
      «Type» := "REQUEST_END"
      StatusCode := rsp.statusCode
      URL := req.urlStr
      RequestHeaders := goHeadersToBearerHeaders req.headers
      ResponseHeaders := goHeadersToBearerHeaders rsp.headers }
    let record :=
      if roundtripError = none ∧ rsp.body ≠ none ∧
         isParseableContentType record.RequestContentType then
        { record with ResponseBody := rsp.body.getD "" }
      else record
    let record :=
      if reqReader ≠ none ∧ isParseableContentType record.ResponseContentType then
        { record with RequestBody := reqReader.getD "" }
      else record
    .ok (record.sanitize).1

/-- What `Agent.RoundTrip` does, as observed by its caller. -/
inductive RoundTripOutcome where
  /-- a Go runtime panic escaped to the caller -/
  | panicked (msg : String)
  /-- returned `(nil, ErrBlockedDomain)` without any network call -/
  | blockedDomain
  /-- returned the underlying transport's response and error verbatim -/
  | completed (resp : Option HttpResponse) (err : Option String)
deriving Repr, DecidableEq

/-- Model of `Agent.RoundTrip` (agent.go), parameterized by the `*Config`
returned by `a.config()` for this call and by the underlying transport's
result.  Steps, in source order: the blocklist loop (dereferencing the
config pointer), the request-body duplication when available, the transport
call, and — when a secret key is set — `newRecord` on the caller's goroutine
(the subsequent `logRecords` goroutine, whose failures and panics are
recovered and logged, cannot affect the outcome and is not modelled). -/
def roundTrip (cfg : Option Config) (secretKey : String) (req : HttpRequest)
    (transportResp : Option HttpResponse) (transportErr : Option String)
    (startedAt endedAt : Int) : RoundTripOutcome :=
  match cfg with
  | none => .panicked "runtime error: invalid memory address or nil pointer dereference"
  | some c =>
    if c.BlockedDomains.contains req.host then .blockedDomain
    else
      let available := secretKey ≠ ""
      let reqReader := if req.body ≠ none ∧ available then req.body else none
      if available then
        match newRecord req transportResp startedAt endedAt reqReader transportErr with
        | .panicked m => .panicked m
        | .ok _ => .completed transportResp transportErr
      else .completed transportResp transportErr

end Bearer

namespace Bearer

/-!
## Concrete instances used by the claim theorems
-/

/-- A plain GET request (telemetry scenarios). -/
def reqPlain : HttpRequest :=
  { scheme := "https", host := "api.example.com", path := "/sample",
    urlStr := "https://api.example.com/sample", method := "GET" }

/-- A plain 200 response. -/
def respPlain : HttpResponse := { statusCode := 200 }

/-- A POST with a JSON request body (request content type passes the
parseable filter). -/
def reqJsonPng : HttpRequest :=
  { scheme := "https", host := "api.example.com", path := "/img",
    urlStr := "https://api.example.com/img", method := "POST",
    headers := some [("Content-Type", ["application/json"])],
    body := some "\x7b\"a\":\"b\"\x7d" }

/-- A PNG response (response content type fails the parseable filter). -/
def respPng : HttpResponse :=
  { statusCode := 200, headers := some [("Content-Type", ["image/png"])],
    body := some "PNGDATA" }

/-- A record whose non-sensitive header values are 16-digit card numbers,
plain and space-separated. -/
def cardRecord : ReportLog :=
  { RequestHeaders := some [("Blah", "4111 1111 1111 1111"),
                            ("Bluh", "4111111111111111")] }

/-- The record of the spec's URL example (and of the repository's own test
table row expecting an empty URL). -/
def urlRecordC5 : ReportLog :=
  { URL := "http://api.example.com/blah/blih?bluh=Authorization&authorization=blanh" }

/-- A header value that is an e-mail address with a three-label domain. -/
def mailRecord3 : ReportLog :=
  { RequestHeaders := some [("Blah", "contact@mail.example.com")] }

/-!
## Helper lemmas
-/

/-- `sanitize` only ever rewrites `URL`, `Path`, the header maps and the two
bodies: the seven remaining fields come through every control-flow path
unchanged, and the header maps are exactly the entry-wise
`sanitizeHeaderEntry` image. -/
theorem sanitize_frame (r : ReportLog) :
    (r.sanitize).1.Protocol = r.Protocol ∧
    (r.sanitize).1.Hostname = r.Hostname ∧
    (r.sanitize).1.Method = r.Method ∧
    (r.sanitize).1.StartedAt = r.StartedAt ∧
    (r.sanitize).1.EndedAt = r.EndedAt ∧
    (r.sanitize).1.«Type» = r.«Type» ∧
    (r.sanitize).1.StatusCode = r.StatusCode ∧
    (r.sanitize).1.RequestHeaders = r.RequestHeaders.map (List.map sanitizeHeaderEntry) ∧
    (r.sanitize).1.ResponseHeaders = r.ResponseHeaders.map (List.map sanitizeHeaderEntry) := by
  unfold ReportLog.sanitize
  dsimp only
  split
  · simp
  · split <;> split <;> simp

/-!
## Claim theorems
-/

/-- C1 (code_bug).  The claim says a failed first configuration fetch lets the
in-flight request proceed with an empty blocklist and is retried on the next
access.  The retry half is true: `config()` leaves the cache nil, so a later
call fetches again.  But the in-flight request does not proceed:
`RoundTrip` immediately selects `.BlockedDomains` on the nil `*Config` that
`config()` returned, which is a nil-pointer dereference panic on the caller's
goroutine. -/
theorem C1_first_fetch_failure_panics_roundtrip :
    configStep none 0 (.error "Get config.bearer.sh: connection refused")
      = (none, none, 1) ∧
    roundTrip (configStep none 0 (.error "Get config.bearer.sh: connection refused")).1
        "app-secret-key" reqPlain (some respPlain) none 0 1
      = .panicked "runtime error: invalid memory address or nil pointer dereference" ∧
    configStep none 1 (.ok { BlockedDomains := ["blocked.example.com"] })
      = (some { BlockedDomains := ["blocked.example.com"] },
         some { BlockedDomains := ["blocked.example.com"] }, 2) :=
  ⟨rfl, rfl, rfl⟩

/-- C2 (code_bug).  With telemetry enabled and the underlying transport
returning an error with no response, the claim says the caller receives
exactly the transport error and the record's status code is included only if
a response exists.  In the code, `newRecord` runs on the caller's goroutine
and its struct literal dereferences the nil response (`resp.StatusCode`), so
the caller observes a panic, not the transport error.  With telemetry
disabled the transport error does pass through verbatim. -/
theorem C2_transport_error_with_telemetry_panics :
    roundTrip (some {}) "app-secret-key" reqPlain none
        (some "dial tcp: connection refused") 0 1
      = .panicked "runtime error: invalid memory address or nil pointer dereference" ∧
    roundTrip (some {}) "" reqPlain none (some "dial tcp: connection refused") 0 1
      = .completed none (some "dial tcp: connection refused") :=
  ⟨rfl, rfl⟩

/-- C3 (code_bug).  The claim pairs each captured body with its own message's
content type.  The code swaps the conditions: with a parseable REQUEST content
type (application/json) and an unparseable RESPONSE content type (image/png),
`newRecord` captures the response body (PNG bytes) and does not capture the
request body — the exact opposite of the claim at this input.  The caller
still receives the transport's response value unchanged. -/
theorem C3_body_capture_conditions_swapped :
    isParseableContentType "application/json" = true ∧
    isParseableContentType "image/png" = false ∧
    newRecord reqJsonPng (some respPng) 10 20 (some "\x7b\"a\":\"b\"\x7d") none
      = .ok { Protocol := "https", Path := "/img", Hostname := "api.example.com",
              Method := "POST", StartedAt := 10, EndedAt := 20,
              «Type» := "REQUEST_END", StatusCode := 200,
              URL := "https://api.example.com/img",
              RequestHeaders := some [("Content-Type", "application/json")],
              RequestBody := "",
              ResponseHeaders := some [("Content-Type", "image/png")],
              ResponseBody := "PNGDATA" } ∧
    roundTrip (some {}) "app-secret-key" reqJsonPng (some respPng) none 10 20
      = .completed (some respPng) none :=
  ⟨rfl, rfl, rfl, rfl⟩

/-- C4 (code_bug).  The claim says digit sequences of 13-16 digits (with
optional space/hyphen separators) in non-key-matched values are replaced by
the placeholder.  Because the pattern is written `\\d` inside a Go raw string,
the compiled regex requires a literal backslash before each d and never
matches decimal digits: sanitizing a record whose header values are card
numbers returns it byte-identical. -/
theorem C4_card_numbers_never_filtered :
    ReportLog.sanitize cardRecord = (cardRecord, none) ∧
    replaceAllStr "4111111111111111" = "4111111111111111" ∧
    replaceAllStr "4111 1111 1111 1111" = "4111 1111 1111 1111" :=
  ⟨rfl, rfl, rfl⟩

/-- C5 counterexample.  Sanitizing the record with URL
`http://api.example.com/blah/blih?bluh=Authorization&authorization=blanh`
succeeds but does NOT yield an empty URL (the repository's own test table
expects `""`, but its URL comparator is vacuous and never enforced it). -/
theorem C5_url_not_emptied :
    (ReportLog.sanitize urlRecordC5).2 = none ∧
    ¬ (ReportLog.sanitize urlRecordC5).1.URL = "" := by
  refine ⟨rfl, ?_⟩
  intro h
  rw [show (ReportLog.sanitize urlRecordC5).1.URL
      = "http://api.example.com/blah/blih?authorization=%5BFILTERED%5D&bluh=Authorization"
    from rfl] at h
  exact absurd h (by decide)

/-- C5 amended.  The value-substring pass leaves this URL unchanged (it
contains no `@` and no literal backslash), the re-parse succeeds, the query
key `authorization` matches the sensitive-key pattern, and the URL is rebuilt
with the query re-encoded in sorted key order and the sensitive value
replaced. -/
theorem C5_url_query_reencoded :
    ReportLog.sanitize urlRecordC5
      = ({ URL := "http://api.example.com/blah/blih?authorization=%5BFILTERED%5D&bluh=Authorization" },
         none) :=
  rfl

/-- C6 counterexample.  For a three-label domain the claim predicts
`[FILTERED].com` ("up to, but not including, the final domain label"), but the
match stops after the FIRST domain label (the dot-extension of the pattern
requires a literal backslash), so `contact@mail.example.com` sanitizes to
`[FILTERED].example.com`. -/
theorem C6_third_label_counterexample :
    (ReportLog.sanitize mailRecord3).1.RequestHeaders
      = some [("Blah", "[FILTERED].example.com")] ∧
    ("[FILTERED].example.com" : String) ≠ "[FILTERED].com" := by
  refine ⟨rfl, ?_⟩
  decide

/-- C6 amended.  Every non-key-matched header value (request or response
side) gets exactly the value-pattern substring replacement; on email-like
substrings that replacement covers the local part, the `@`, and only the
FIRST domain label, leaving later dot-separated labels (for two-label domains
this coincides with "up to, but not including, the final label").  The two
spec examples hold, and disjoint email-like substrings are replaced
independently. -/
theorem C6_email_substrings_first_label (k : String) (hk : sensitiveKeyMatch k = false) :
    (∀ v, (ReportLog.sanitize { RequestHeaders := some [(k, v)] }).1.RequestHeaders
            = some [(k, replaceAllStr v)]) ∧
    (∀ v, (ReportLog.sanitize { ResponseHeaders := some [(k, v)] }).1.ResponseHeaders
            = some [(k, replaceAllStr v)]) ∧
    replaceAllStr "contact@example.com" = "[FILTERED].com" ∧
    replaceAllStr "aaa bbb@ccc ddd eee@fff.ggg hhh" = "aaa [FILTERED] ddd [FILTERED].ggg hhh" ∧
    replaceAllStr "contact@mail.example.com" = "[FILTERED].example.com" := by
  refine ⟨?_, ?_, rfl, rfl, rfl⟩
  · intro v
    have h := (sanitize_frame { RequestHeaders := some [(k, v)] }).2.2.2.2.2.2.2.1
    rw [h]; simp [sanitizeHeaderEntry, hk]
  · intro v
    have h := (sanitize_frame { ResponseHeaders := some [(k, v)] }).2.2.2.2.2.2.2.2
    rw [h]; simp [sanitizeHeaderEntry, hk]

/-- Witness for C6: instantiated at the non-sensitive key "Blah" and the
spec's example value. -/
theorem C6_email_substrings_first_label_witness :
    sensitiveKeyMatch "Blah" = false ∧
    (ReportLog.sanitize { RequestHeaders := some [("Blah", "contact@example.com")] }).1.RequestHeaders
      = some [("Blah", replaceAllStr "contact@example.com")] :=
  ⟨by decide, (C6_email_substrings_first_label "Blah" (by decide)).1 "contact@example.com"⟩

/-- C7 (confirmed).  Any header entry (request or response side) whose key
matches the sensitive-key pattern has its whole value replaced by the
placeholder, wherever it sits in the map; the pattern is a case-insensitive
exact match on the fixed name set (with `.?` separator slots), accepting the
listed names in any capitalization and rejecting keys that merely contain a
name, such as `Authorization2` and `2Authorization`. -/
theorem C7_sensitive_keys_redacted_wholly :
    (∀ (r : ReportLog) (hs : List (String × String)) (i : Nat) (k v : String),
        r.RequestHeaders = some hs → hs[i]? = some (k, v) → sensitiveKeyMatch k = true →
        ∃ hs2, (r.sanitize).1.RequestHeaders = some hs2 ∧
          hs2[i]? = some (k, defaultSensitivePlaceholder)) ∧
    (∀ (r : ReportLog) (hs : List (String × String)) (i : Nat) (k v : String),
        r.ResponseHeaders = some hs → hs[i]? = some (k, v) → sensitiveKeyMatch k = true →
        ∃ hs2, (r.sanitize).1.ResponseHeaders = some hs2 ∧
          hs2[i]? = some (k, defaultSensitivePlaceholder)) ∧
    sensitiveKeyMatch "authorization" = true ∧
    sensitiveKeyMatch "AutHorizAtion" = true ∧
    sensitiveKeyMatch "Password" = true ∧
    sensitiveKeyMatch "secret" = true ∧
    sensitiveKeyMatch "passwd" = true ∧
    sensitiveKeyMatch "ApiKey" = true ∧
    sensitiveKeyMatch "api-key" = true ∧
    sensitiveKeyMatch "Access Token" = true ∧
    sensitiveKeyMatch "auth-token" = true ∧
    sensitiveKeyMatch "credentials" = true ∧
    sensitiveKeyMatch "mysql_pwd" = true ∧
    sensitiveKeyMatch "stripetoken" = true ∧
    sensitiveKeyMatch "Card Number" = true ∧
    sensitiveKeyMatch "client id" = true ∧
    sensitiveKeyMatch "Client-Secret" = true ∧
    sensitiveKeyMatch "Authorization2" = false ∧
    sensitiveKeyMatch "2Authorization" = false := by
  refine ⟨?_, ?_, by decide⟩
  · intro r hs i k v hr hi hk
    refine ⟨hs.map sanitizeHeaderEntry, ?_, ?_⟩
    · rw [(sanitize_frame r).2.2.2.2.2.2.2.1, hr]; rfl
    · rw [List.getElem?_map, hi]; simp [sanitizeHeaderEntry, hk]
  · intro r hs i k v hr hi hk
    refine ⟨hs.map sanitizeHeaderEntry, ?_, ?_⟩
    · rw [(sanitize_frame r).2.2.2.2.2.2.2.2, hr]; rfl
    · rw [List.getElem?_map, hi]; simp [sanitizeHeaderEntry, hk]

/-- Witness for C7: the `authorization: hello` request header of the
repository's own test table. -/
theorem C7_sensitive_keys_redacted_wholly_witness :
    ∃ hs2, (ReportLog.sanitize { RequestHeaders := some [("authorization", "hello")] }).1.RequestHeaders
        = some hs2 ∧ hs2[0]? = some ("authorization", defaultSensitivePlaceholder) :=
  C7_sensitive_keys_redacted_wholly.1
    { RequestHeaders := some [("authorization", "hello")] }
    [("authorization", "hello")] 0 "authorization" "hello" rfl rfl (by decide)

/-- C8 (confirmed).  With content type exactly `application/json`, the body is
parsed as a flat JSON object and its top-level entries redacted; any body that
does not parse as an object (a scalar, an array, invalid JSON) is returned
byte-identical, and the whole sanitize call reports no error for any body; the
empty object round-trips byte-identical. -/
theorem C8_json_bodies :
    (∀ s : String,
        (match parseJsonTop s.data with
         | some (Json.obj _) => False
         | some Json.null => False
         | _ => True) → sanitizeJSON s = s) ∧
    sanitizeJSON "\x7b\"authorization\":\"blah\"\x7d" = "\x7b\"authorization\":\"[FILTERED]\"\x7d" ∧
    sanitizeJSON "42" = "42" ∧
    sanitizeJSON "[42]" = "[42]" ∧
    sanitizeJSON "\x7b\x7d" = "\x7b\x7d" ∧
    (∀ body : String, body ≠ "" →
        ReportLog.sanitize { RequestHeaders := some [("Content-Type", "application/json")],
                             RequestBody := body }
          = ({ RequestHeaders := some [("Content-Type", "application/json")],
               RequestBody := sanitizeJSON body }, none)) := by
  refine ⟨?_, rfl, rfl, rfl, rfl, ?_⟩
  · intro s h
    unfold sanitizeJSON
    split
    · next heq => rw [heq] at h; simp at h
    · next heq => rw [heq] at h; simp at h
    · rfl
  · intro body hb
    unfold ReportLog.sanitize
    dsimp only
    rw [show sanitizeURLStep "" "" = (("", ""), none) from rfl]
    have h1 : sensitiveKeyMatch "Content-Type" = false := by decide
    have h2 : replaceAllStr "application/json" = "application/json" := by decide
    have h3 : headersContentType (some [("Content-Type", "application/json")])
        = "application/json" := rfl
    have h4 : headersContentType (none : Option (List (String × String))) = "" := rfl
    simp [ReportLog.RequestContentType, ReportLog.ResponseContentType, sanitizeHeaderEntry,
          h1, h2, h3, h4, hb]

/-- Witness for C8: the array body `[42]` passes through byte-identical, both
at the `sanitizeJSON` level and through the whole sanitize call. -/
theorem C8_json_bodies_witness :
    sanitizeJSON "[42]" = "[42]" ∧
    ReportLog.sanitize { RequestHeaders := some [("Content-Type", "application/json")],
                         RequestBody := "[42]" }
      = ({ RequestHeaders := some [("Content-Type", "application/json")],
           RequestBody := sanitizeJSON "[42]" }, none) :=
  ⟨C8_json_bodies.1 "[42]" (by trivial),
   C8_json_bodies.2.2.2.2.2 "[42]" (by decide)⟩

/-- C10 (confirmed).  For every record, sanitize leaves `Protocol`,
`Hostname`, `Method`, `StartedAt`, `EndedAt`, `Type` and `StatusCode`
unchanged on every control-flow path; in particular a hostname that is itself
an email-like or 16-digit value is not redacted. -/
theorem C10_frame_fields_untouched :
    (∀ r : ReportLog,
        (r.sanitize).1.Protocol = r.Protocol ∧
        (r.sanitize).1.Hostname = r.Hostname ∧
        (r.sanitize).1.Method = r.Method ∧
        (r.sanitize).1.StartedAt = r.StartedAt ∧
        (r.sanitize).1.EndedAt = r.EndedAt ∧
        (r.sanitize).1.«Type» = r.«Type» ∧
        (r.sanitize).1.StatusCode = r.StatusCode) ∧
    (ReportLog.sanitize { Hostname := "contact@example.com" }).1.Hostname
      = "contact@example.com" ∧
    (ReportLog.sanitize { Hostname := "4111111111111111" }).1.Hostname
      = "4111111111111111" :=
  ⟨fun r =>
    ⟨(sanitize_frame r).1, (sanitize_frame r).2.1, (sanitize_frame r).2.2.1,
     (sanitize_frame r).2.2.2.1, (sanitize_frame r).2.2.2.2.1,
     (sanitize_frame r).2.2.2.2.2.1, (sanitize_frame r).2.2.2.2.2.2.1⟩,
   rfl, rfl⟩

end Bearer
